import Mathlib

/-!
Formal model of the Action Plan Execution Engine of the Browser-Control-Agent
repository (`backend/app/browser.py`), shallowly embedded in Lean 4.

Modelling conventions:
* Python strings are Lean `String`s; the Python string operations used by the
  code (`strip`, `split(",")`, `replace(x, "")`, `lower`, `in`) are modelled by
  executable functions over the underlying character list, so that concrete
  runs reduce inside the kernel.
* Python `int(...)` / `float(...)` and the JavaScript `parseFloat` are modelled
  as `Option`-valued parsers (`none` = the call raises / yields NaN).  Python
  floats are modelled as exact decimals (`Dec10`; binary floating point
  rounding is not modelled; all numbers appearing in the engine are small
  decimals).
* The Playwright page is abstracted as an oracle: `wait : String → Nat →
  Option ε` gives the outcome of `page.wait_for_selector(sel, ...)` on the
  given attempt number, and DOM containers used by the extraction scripts are
  abstracted as `query : String → Option String` (text content of the first
  element matching a selector, `none` when no element matches).
* Steps handlers are abstracted at the dispatcher level as an `Outcome`
  oracle: a handler either returns normally after emitting a list of handler
  events, or raises an exception with a message (`Outcome.exn`), exactly the
  two possibilities the dispatcher's `try/except` distinguishes.
-/

/-! ### Python / JavaScript string primitives -/

/-- Python `str.strip()`: remove leading and trailing whitespace. -/
def pyStrip (s : String) : String :=
  ⟨(((s.data.dropWhile Char.isWhitespace).reverse.dropWhile Char.isWhitespace).reverse)⟩

/-- Python `str.replace(c, "")` for a single-character pattern: drop every
occurrence of `c`. -/
def removeChar (c : Char) (s : String) : String :=
  ⟨s.data.filter (fun d => d ≠ c)⟩

/-- Helper for `splitOnChar`: split a character list at every occurrence of
`c`. -/
def splitCharList (c : Char) : List Char → List (List Char)
  | [] => [[]]
  | d :: rest =>
    match splitCharList c rest with
    | [] => [[]]
    | part :: parts => if d = c then [] :: part :: parts else (d :: part) :: parts

/-- Python `str.split(c)` for a one-character separator. -/
def splitOnChar (c : Char) (s : String) : List String :=
  (splitCharList c s.data).map (fun l => ⟨l⟩)

/-- Python `str.lower()` (ASCII case folding, which covers all strings the
engine manipulates). -/
def lowerStr (s : String) : String :=
  ⟨s.data.map Char.toLower⟩

/-- Occurrence test on character lists (Python `sub in s`). -/
def hasSubList (sub : List Char) : List Char → Bool
  | [] => sub.isEmpty
  | c :: rest => sub.isPrefixOf (c :: rest) || hasSubList sub rest

/-- Python `sub in s` for strings. -/
def hasSub (sub s : String) : Bool :=
  hasSubList sub.data s.data

/-! ### Decimal numbers -/

/-- Value of a decimal digit string (most significant digit first). -/
def digitsToNat (cs : List Char) : Nat :=
  cs.foldl (fun n c => n * 10 + (c.toNat - 48)) 0

/-- Decimal digits of `n`, most significant first; `fuel` bounds the recursion
(`n < fuel` renders all digits). -/
def natDigitsAux : Nat → Nat → List Char
  | 0, _ => []
  | fuel + 1, n => if n = 0 then [] else natDigitsAux fuel (n / 10) ++ [Nat.digitChar (n % 10)]

/-- Python `str(n)` for a natural number. -/
def natRepr (n : Nat) : String :=
  if n = 0 then "0" else ⟨natDigitsAux (n + 1) n⟩

/-- Python `str(i)` for an integer. -/
def intRepr (i : Int) : String :=
  if i < 0 then "-" ++ natRepr i.natAbs else natRepr i.toNat

/-- Core of `pyInt` on a stripped character list. -/
def pyIntCore : List Char → Option Int
  | [] => none
  | c :: cs =>
    if c = '-' then
      if cs ≠ [] ∧ cs.all Char.isDigit then some (-(digitsToNat cs : Int)) else none
    else if c = '+' then
      if cs ≠ [] ∧ cs.all Char.isDigit then some ((digitsToNat cs : Int)) else none
    else if (c :: cs).all Char.isDigit then some ((digitsToNat (c :: cs) : Int)) else none

/-- Python `int(s)`: optional sign followed by decimal digits, surrounding
whitespace ignored; `none` models a raised `ValueError`.  (Unicode digits and
underscore separators, which never occur in the engine's inputs, are not
modelled.) -/
def pyInt (s : String) : Option Int :=
  pyIntCore (pyStrip s).data

/-- An exact decimal number `num / 10 ^ exp`.  Python floats and JavaScript
numbers handled by the engine are all small decimals, which this type
represents exactly; its order agrees with the rational order
(`Dec10.le_iff_toRat`), and unlike `ℚ` arithmetic it reduces inside the
kernel. -/
structure Dec10 where
  num : Int
  exp : Nat
deriving DecidableEq, Repr

/-- The rational value of a decimal. -/
def Dec10.toRat (a : Dec10) : ℚ :=
  (a.num : ℚ) / (10 : ℚ) ^ a.exp

/-- Decidable order on decimals (cross multiplication by the positive
denominators). -/
def Dec10.le (a b : Dec10) : Bool :=
  a.num * 10 ^ b.exp ≤ b.num * 10 ^ a.exp

/-- A natural number as a decimal. -/
def Dec10.ofNat (n : Nat) : Dec10 :=
  ⟨n, 0⟩

/-- Multiplication of a decimal by a natural number (used for the linear
retry backoff). -/
def Dec10.mulNat (a : Dec10) (n : Nat) : Dec10 :=
  ⟨a.num * n, a.exp⟩

/-- Python `float(s)` restricted to the decimal forms `digits`,
`digits.digits`, `.digits`, `digits.` produced by the engine's regexes;
`none` models a raised `ValueError`.  (Exponents, signs, `inf`/`nan` never
occur in the engine's inputs.) -/
def pyFloat (s : String) : Option Dec10 :=
  match splitCharList '.' (pyStrip s).data with
  | [a] => if a ≠ [] ∧ a.all Char.isDigit then some ⟨digitsToNat a, 0⟩ else none
  | [a, b] =>
    if a.all Char.isDigit ∧ b.all Char.isDigit ∧ (a ≠ [] ∨ b ≠ []) then
      some ⟨digitsToNat a * 10 ^ b.length + digitsToNat b, b.length⟩
    else none
  | _ => none

/-- First match of the JavaScript regex `/([\d.]+)/` in a string: the first
maximal run of digits and dots, `none` when there is none. -/
def firstNumRun (s : String) : Option String :=
  match s.data.dropWhile (fun c => !(c.isDigit || c = '.')) with
  | [] => none
  | c :: rest => some ⟨(c :: rest).takeWhile (fun d => d.isDigit || d = '.')⟩

/-- JavaScript `parseFloat`: parse the longest numeric prefix
`digits [. digits]`; `none` models `NaN` (no digit consumed). -/
def jsParseFloat (s : String) : Option Dec10 :=
  let cs := s.data
  let d1 := cs.takeWhile Char.isDigit
  let rest := cs.drop d1.length
  let d2 := match rest with
    | '.' :: r => r.takeWhile Char.isDigit
    | _ => []
  if d1 = [] ∧ d2 = [] then none
  else some ⟨digitsToNat d1 * 10 ^ d2.length + digitsToNat d2, d2.length⟩

example : pyStrip "  ab " = "ab" := by decide
example : removeChar ',' "1,234" = "1234" := by decide
example : splitOnChar ',' "#a, #b" = ["#a", " #b"] := by decide
example : pyInt "45999" = some 45999 := by decide
example : pyInt " -12 " = some (-12) := by decide
example : pyInt "ab" = none := by decide
example : natRepr 45999 = "45999" := by decide
example : intRepr 120 = "120" := by decide
example : pyFloat "4.2" = some ⟨42, 1⟩ := by decide
example : pyFloat "" = none := by decide
example : firstNumRun "rated 4.2 stars" = some "4.2" := by decide
example : jsParseFloat "4.5.1" = some ⟨45, 1⟩ := by decide
example : jsParseFloat "." = none := by decide
example : Dec10.le ⟨40, 1⟩ ⟨42, 1⟩ = true := by decide
example : Dec10.le ⟨40, 1⟩ ⟨38, 1⟩ = false := by decide
example : hasSub "email" "user_email_addr" = true := by decide
example : lowerStr "EMail" = "email" := by decide

/-! ### Selector resolver (`_find_selector_with_retry`, browser.py:122-131)

The Playwright page is abstracted as an oracle `wait : String → Nat → Option ε`
giving the outcome of `page.wait_for_selector(selector, timeout, state =
"visible")` for a selector on a given (0-based) attempt number: `some e` when
the element became visible (returning the element handle `e`), `none` when the
call raised (timeout).  The run is recorded as a trace of `ResolverEvent`s. -/

/-- Module-level retry configuration (browser.py:13). -/
def MAX_RETRIES : Nat := 3

/-- Module-level backoff base of 1.0 second (browser.py:14). -/
def RETRY_DELAY : Dec10 := ⟨1, 0⟩

/-- One observable event of a resolver run: an attempt on a selector (with
its 0-based attempt index and whether it found a visible element), or an
`asyncio.sleep` for the given number of seconds. -/
inductive ResolverEvent where
  | attempt (sel : String) (idx : Nat) (ok : Bool)
  | sleep (seconds : Dec10)
deriving DecidableEq, Repr

/-- The inner `for attempt in range(maxr)` loop of the resolver on one
candidate selector, over the list of remaining attempt indices: return at the
first visible match; after a failed attempt `a` with `a < maxr - 1`, sleep
`RETRY_DELAY * (a + 1)` seconds (browser.py:125-130). -/
def attemptsRun {ε : Type} (wait : String → Nat → Option ε) (sel : String) (maxr : Nat) :
    List Nat → Option ε × List ResolverEvent
  | [] => (none, [])
  | a :: rest =>
    match wait sel a with
    | some e => (some e, [ResolverEvent.attempt sel a true])
    | none =>
      let r := attemptsRun wait sel maxr rest
      if a < maxr - 1 then
        (r.1, ResolverEvent.attempt sel a false :: ResolverEvent.sleep (RETRY_DELAY.mulNat (a + 1)) :: r.2)
      else
        (r.1, ResolverEvent.attempt sel a false :: r.2)

/-- All `MAX_RETRIES` attempts on one candidate selector. -/
def tryCandidate {ε : Type} (wait : String → Nat → Option ε) (sel : String) :
    Option ε × List ResolverEvent :=
  attemptsRun wait sel MAX_RETRIES (List.range MAX_RETRIES)

/-- The outer loop over candidate selectors, strictly in the given order:
stop at the first candidate whose attempts find a visible element
(browser.py:124-131). -/
def resolveCandidates {ε : Type} (wait : String → Nat → Option ε) :
    List String → Option ε × List ResolverEvent
  | [] => (none, [])
  | sel :: rest =>
    let c := tryCandidate wait sel
    match c.1 with
    | some e => (some e, c.2)
    | none =>
      let r := resolveCandidates wait rest
      (r.1, c.2 ++ r.2)

/-- `[s.strip() for s in selectors.split(",")]` (browser.py:124). -/
def splitCandidates (selectors : String) : List String :=
  (splitOnChar ',' selectors).map pyStrip

/-- `_find_selector_with_retry(page, selectors)`: resolve a comma-separated
candidate list against the page, `none` when every candidate exhausted its
attempts (browser.py:122-131).  (The `timeout` argument only parameterizes
the driver call already abstracted by `wait`.) -/
def find_selector_with_retry {ε : Type} (wait : String → Nat → Option ε)
    (selectors : String) : Option ε :=
  (resolveCandidates wait (splitCandidates selectors)).1

/-- Number of failed attempts recorded in a resolver trace. -/
def countFailed (evs : List ResolverEvent) : Nat :=
  (evs.filter (fun ev =>
    match ev with
    | ResolverEvent.attempt _ _ ok => !ok
    | ResolverEvent.sleep _ => false)).length

/-- The sleep durations of a resolver trace, in order. -/
def sleepsOf (evs : List ResolverEvent) : List Dec10 :=
  evs.filterMap (fun ev =>
    match ev with
    | ResolverEvent.attempt _ _ _ => none
    | ResolverEvent.sleep d => some d)

/-! ### Extraction & validation pipeline (`_handle_extract_products`,
browser.py:229-574)

The in-page evaluation result (`page.evaluate(extraction_script)`) is a JSON
list of objects with optional string fields, modelled by `RawItem`
(`none` = the key is absent).  The Python post-processing — validation,
rating/price filtering, truncation and event emission (browser.py:496-567) —
is modelled by `handle_extract_products`. -/

/-- One raw item produced by the in-page extraction script; a field is `none`
when the corresponding key is absent from the object. -/
structure RawItem where
  name : Option String
  price : Option String
  rating : Option String
  url : Option String
deriving DecidableEq, Repr

/-- A validated item as accumulated into the run's `Results` (all fields are
strings after the validation loop normalizes them; the empty string is the
"absent" sentinel). -/
structure ExtractedItem where
  name : String
  price : String
  rating : String
  url : String
deriving DecidableEq, Repr

/-- The parameters of an `extract_products` step that the Python
post-processing reads: `count` (default 3), `site` (default `"flipkart"`),
and the optional deferred filter parameters. -/
structure ExtractStep where
  count : Nat
  site : String
  min_rating : Option Dec10
  max_price : Option Int
  min_price : Option Int
deriving Repr

/-- One iteration of the validation loop (browser.py:501-529): strip the
name and require at least 3 characters; strip commas and the currency marker
from the price and parse it with `int(...)`; for `"zomato"` the item is kept
with price/rating/url defaulted to `""`, otherwise (product sites) the item
is kept only when the parsed price is at least 100.  `none` = the item is
skipped (`continue`). -/
def validateOne (site : String) (p : RawItem) : Option ExtractedItem :=
  let name := pyStrip (p.name.getD "")
  if name = "" ∨ name.length < 3 then none
  else
    let price_str := removeChar '₹' (removeChar ',' (p.price.getD "0"))
    let parsed : Option Int := if price_str = "" then some 0 else pyInt price_str
    match parsed with
    | some price_val =>
      if site = "zomato" then
        some ⟨p.name.getD "", if 0 < price_val then intRepr price_val else "",
              p.rating.getD "", p.url.getD ""⟩
      else if 100 ≤ price_val then
        some ⟨p.name.getD "", intRepr price_val, p.rating.getD "", p.url.getD ""⟩
      else none
    | none =>
      if site = "zomato" then
        some ⟨p.name.getD "", "", p.rating.getD "", p.url.getD ""⟩
      else none

/-- The validation loop over the whole raw list (`valid_products`,
browser.py:500-530). -/
def validateProducts (site : String) (raw : List RawItem) : List ExtractedItem :=
  raw.filterMap (validateOne site)

/-- The rating filter comprehension (browser.py:536-537): an item whose
rating is the empty string (falsy) is dropped without parsing; otherwise
`float(rating)` is compared against the threshold, and a parse failure raises
(`none`), aborting the whole extraction step. -/
def ratingFilterStep (mr : Dec10) : List ExtractedItem → Option (List ExtractedItem)
  | [] => some []
  | p :: rest =>
    if p.rating = "" then ratingFilterStep mr rest
    else
      match pyFloat p.rating with
      | none => none
      | some r => (ratingFilterStep mr rest).map (fun l => if Dec10.le mr r then p :: l else l)

/-- The price filter comprehension (browser.py:543-546): an item with an
empty price passes through; otherwise the parsed price must lie in
`[minv, maxv]`; a parse failure raises (`none`). -/
def priceFilterStep (maxv minv : Int) : List ExtractedItem → Option (List ExtractedItem)
  | [] => some []
  | p :: rest =>
    if p.price = "" then (priceFilterStep maxv minv rest).map (fun l => p :: l)
    else
      match pyInt p.price with
      | none => none
      | some v => (priceFilterStep maxv minv rest).map (fun l => if v ≤ maxv ∧ minv ≤ v then p :: l else l)

/-- `int(max_p) if max_p else 999999999` (browser.py:545): a missing or zero
(falsy) bound defaults to 999999999. -/
def maxBound999 (o : Option Int) : Int :=
  match o with
  | some v => if v ≠ 0 then v else 999999999
  | none => 999999999

/-- `int(min_p) if min_p else 0` (browser.py:546). -/
def minBound0 (o : Option Int) : Int :=
  match o with
  | some v => if v ≠ 0 then v else 0
  | none => 0

/-- Python truthiness of an optional integer (`None` and `0` are falsy). -/
def intTruthy (o : Option Int) : Bool :=
  match o with
  | some v => v != 0
  | none => false

/-- An event emitted from inside a step handler: the step handlers only emit
`action`, `warning` and `error` events (the `action_start` / `action_complete`
/ `status` lifecycle events are emitted by the dispatcher alone).
`actionCount` is an `action` event additionally carrying a `count` and a
`preview` key (browser.py:559-565). -/
inductive HandlerEvent where
  | action (name : String) (msg : String)
  | actionCount (name : String) (msg : String) (count : Nat) (preview : List ExtractedItem)
  | warning (msg : String)
  | error (msg : String)
deriving DecidableEq, Repr

/-- The conditional rating filter of an extraction step (browser.py:534-539):
applied only when `min_rating` is truthy and the site is `"zomato"`; on
success it also yields the filter-result event reporting the surviving
count.  `none` = the comprehension raised. -/
def ratingStage (step : ExtractStep) (products : List ExtractedItem) :
    Option (List ExtractedItem × List HandlerEvent) :=
  match step.min_rating with
  | some mr =>
    if mr.num ≠ 0 ∧ step.site = "zomato" then
      match ratingFilterStep mr products with
      | some f =>
        some (f, [HandlerEvent.action "filter_rating"
          ("Filtered: " ++ natRepr f.length ++ " restaurants")])
      | none => none
    else some (products, [])
  | none => some (products, [])

/-- The conditional price filter of an extraction step (browser.py:541-549):
applied only when a price bound is truthy and the site is not `"zomato"`.
`none` = the comprehension raised. -/
def priceStage (step : ExtractStep) (filtered1 : List ExtractedItem) :
    Option (List ExtractedItem × List HandlerEvent) :=
  if (intTruthy step.max_price || intTruthy step.min_price) ∧ step.site ≠ "zomato" then
    match priceFilterStep (maxBound999 step.max_price) (minBound0 step.min_price) filtered1 with
    | some f =>
      some (f, [HandlerEvent.action "filter_price"
        ("Filtered: " ++ natRepr f.length ++ " items")])
    | none => none
  else some (filtered1, [])

/-- The Python post-processing of one `extract_products` step
(browser.py:496-574): validate, optionally filter by rating (listing sites)
or price bounds (product sites), truncate to the requested `count`, and emit
the corresponding events.  A filter-time parse exception is caught by the
handler's own `except` block, which emits an error event and returns `[]`
(browser.py:569-574).  (The rating-filter message also interpolates the
threshold in the source; float formatting is not modelled.) -/
def handle_extract_products (step : ExtractStep) (raw : List RawItem) :
    List ExtractedItem × List HandlerEvent :=
  let ev0 := HandlerEvent.action "extract_products"
    ("Extracting top " ++ natRepr step.count ++ " results...")
  let products := validateProducts step.site raw
  match ratingStage step products with
  | none => ([], [ev0, HandlerEvent.error "Extraction error"])
  | some (filtered1, evs1) =>
    match priceStage step filtered1 with
    | none => ([], [ev0] ++ evs1 ++ [HandlerEvent.error "Extraction error"])
    | some (filtered2, evs2) =>
      let final := filtered2.take step.count
      let evsEnd :=
        if final.length = 0 then
          [HandlerEvent.warning
            "No valid products found. The page structure might have changed. Try a different search query."]
        else
          [HandlerEvent.actionCount "extract_products"
            ("Extracted " ++ natRepr final.length ++ " valid results")
            final.length (final.take 2)]
      (final, [ev0] ++ evs1 ++ evs2 ++ evsEnd)

example :
    validateOne "flipkart" ⟨some "MacBook Air M2", some "₹45,999", some "4.5", some "u"⟩ =
      some ⟨"MacBook Air M2", "45999", "4.5", "u"⟩ := by decide
example : validateOne "flipkart" ⟨some "Pen", some "99", none, none⟩ = none := by decide
example :
    validateOne "zomato" ⟨some "Cafe Uno", none, some "4.2", none⟩ =
      some ⟨"Cafe Uno", "", "4.2", ""⟩ := by decide
example : validateOne "zomato" ⟨some " ab ", none, none, none⟩ = none := by decide

/-! ### In-page rating extraction (browser.py:296-308 and 450-467)

A container is abstracted as `query : String → Option String`: the text
content of the first element the container holds for a selector, `none` when
`querySelector` finds no element.  (`textContent || ''` may still be the
empty string, hence `some ""` is a possible answer.) -/

/-- The zomato rating selector fallback list (browser.py:297). -/
def zomatoRatingSelectors : List String :=
  ["[class*=\"rating\"]", "[class*=\"sc-1q7bklc\"]", ".rating"]

/-- The flipkart rating selector fallback list (browser.py:451-456). -/
def flipkartRatingSelectors : List String :=
  ["._3LWZlK", "div[class*=\"_3LWZlK\"]", "._2_R_DZ span", "[class*=\"rating\"]"]

/-- The zomato per-container rating loop (browser.py:298-308): for each
selector in order, if an element exists, match `/([\d.]+)/` against its text
and accept the match only when `parseFloat` of it lies in `[1, 5]`; otherwise
move on to the next selector. -/
def zomatoRatingLoop (query : String → Option String) : List String → Option String
  | [] => none
  | sel :: rest =>
    match query sel with
    | none => zomatoRatingLoop query rest
    | some text =>
      match firstNumRun text with
      | none => zomatoRatingLoop query rest
      | some run =>
        match jsParseFloat run with
        | none => zomatoRatingLoop query rest
        | some v =>
          if Dec10.le (Dec10.ofNat 1) v ∧ Dec10.le v (Dec10.ofNat 5) then some run
          else zomatoRatingLoop query rest

/-- The rating field extracted for a zomato container. -/
def zomatoRatingField (query : String → Option String) : Option String :=
  zomatoRatingLoop query zomatoRatingSelectors

/-- The flipkart per-container rating loop (browser.py:457-467): for each
selector in order, if an element exists and `/([\d.]+)/` matches its text,
accept the match — no range check is performed. -/
def flipkartRatingLoop (query : String → Option String) : List String → Option String
  | [] => none
  | sel :: rest =>
    match query sel with
    | none => flipkartRatingLoop query rest
    | some text =>
      match firstNumRun text with
      | none => flipkartRatingLoop query rest
      | some run => some run

/-- The rating field extracted for a flipkart container. -/
def flipkartRatingField (query : String → Option String) : Option String :=
  flipkartRatingLoop query flipkartRatingSelectors

/-! ### `_handle_fill_form_field` (browser.py:577-594) -/

/-- A side effect issued against the page by the form-fill handler. -/
inductive FillEffect where
  | fill (selector : String) (value : String)
deriving DecidableEq, Repr

/-- Value synthesis (browser.py:581-587): when no value is supplied or
generation is requested, synthesize a plausible value keyed by the field
name; `rand` stands for the pre-drawn random characters/digits. -/
def fillValue (field_name value : String) (generate_if_needed : Bool) (rand : String) : String :=
  if value = "" ∨ generate_if_needed then
    if hasSub "email" (lowerStr field_name) then "temp_" ++ rand ++ "@example.com"
    else if hasSub "phone" (lowerStr field_name) then "+91" ++ rand
    else "test_" ++ rand
  else value

/-- The four candidate input selectors derived from the field name
(browser.py:588-589). -/
def fillCandidates (field_name : String) : List String :=
  ["input[name='" ++ field_name ++ "']",
   "input[id='" ++ field_name ++ "']",
   "input[placeholder*='" ++ field_name ++ "']",
   "#" ++ field_name]

/-- `_handle_fill_form_field` (browser.py:577-594): synthesize the value if
needed, resolve the joined candidate list with the retrying resolver; on
success `page.fill(selectors[0], value)` is issued — always against the
first candidate string — and an action event is emitted; when nothing
resolves, a warning event is emitted and the handler returns normally.
`Except.error` would model a raised handler exception; this handler never
raises. -/
def handle_fill_form_field {ε : Type} (wait : String → Nat → Option ε)
    (field_name value : String) (generate_if_needed : Bool) (rand : String) :
    Except String (List HandlerEvent × List FillEffect) :=
  match find_selector_with_retry wait (String.intercalate "," (fillCandidates field_name)) with
  | some _ =>
    Except.ok ([HandlerEvent.action "fill_form_field" ("Filled " ++ field_name)],
      [FillEffect.fill ("input[name='" ++ field_name ++ "']")
        (fillValue field_name value generate_if_needed rand)])
  | none =>
    Except.ok ([HandlerEvent.warning ("Field not found: " ++ field_name)], [])

/-! ### Plan dispatcher (`run_action_plan`, browser.py:25-119)

The dispatcher is modelled from the point where the browser session is up
(browser.py:59): the launch-failure path returns before any step runs and is
out of scope of the claims below.  The behavior of the individual step
handlers is abstracted as an oracle `beh : Nat → Step → Outcome` giving, for
the step at a given index, either the handler events it emits before
returning normally (together with the items an `extract_products` handler
returns), or the message of the exception it raises. -/

/-- The step record fields the dispatcher and the claims below read. -/
structure Step where
  action : String
  reason : String
  field_name : String
  value : String
  generate_if_needed : Bool
deriving DecidableEq, Repr

/-- A step with only an action name (the remaining fields at their
dictionary-default values). -/
def mkStep (action : String) : Step :=
  ⟨action, "Unsupported action", "", "", false⟩

/-- The outcome of dispatching one step to its handler. -/
inductive Outcome where
  | ok (events : List HandlerEvent) (items : List ExtractedItem)
  | exn (msg : String)

/-- A dispatcher-level run event (browser.py event dictionaries, keyed by
their `type` field; `action_start` carries the 1-based step number and the
total number of steps). -/
inductive RunEvent where
  | status (msg : String)
  | actionStart (action : String) (step : Nat) (total : Nat)
  | action (name : String) (msg : String)
  | actionCount (name : String) (msg : String) (count : Nat) (preview : List ExtractedItem)
  | actionComplete (action : String)
  | warning (msg : String)
  | error (msg : String)
deriving DecidableEq, Repr

/-- Handler events embed into run events unchanged. -/
def HandlerEvent.toRun : HandlerEvent → RunEvent
  | HandlerEvent.action name msg => RunEvent.action name msg
  | HandlerEvent.actionCount name msg count preview => RunEvent.actionCount name msg count preview
  | HandlerEvent.warning msg => RunEvent.warning msg
  | HandlerEvent.error msg => RunEvent.error msg

/-- The action names with a handler dispatch branch (browser.py:72-90). -/
def knownActions : List String :=
  ["navigate", "wait_for", "type", "click", "filter_price", "filter_rating",
   "extract_products", "fill_form_field", "submit_form"]

/-- Dispatch of one step (browser.py:62-101): emit `action_start`; an
`unsupported` step emits an error with the step's reason and stops the run
(`break`); a known action runs its handler — normal return appends the
handler's events and then `action_complete`, while a caught exception appends
an error event and `continue`s (skipping `action_complete`); an unknown
action emits an error event and then `action_complete`.  Returns the emitted
events, the items contributed to `results` and whether the loop stops. -/
def dispatchStep (beh : Nat → Step → Outcome) (idx total : Nat) (step : Step) :
    List RunEvent × List ExtractedItem × Bool :=
  let start := RunEvent.actionStart step.action (idx + 1) total
  if step.action = "unsupported" then
    ([start, RunEvent.error step.reason], [], true)
  else if step.action ∈ knownActions then
    match beh idx step with
    | Outcome.ok evs items =>
      ([start] ++ evs.map HandlerEvent.toRun ++ [RunEvent.actionComplete step.action],
       if step.action = "extract_products" then items else [], false)
    | Outcome.exn msg =>
      ([start, RunEvent.error ("Error in " ++ step.action ++ ": " ++ msg)], [], false)
  else
    ([start, RunEvent.error ("Unknown action: " ++ step.action)], [], false)

/-- The `for step_idx, step in enumerate(plan)` loop (browser.py:62-101),
starting at index `idx`. -/
def runPlanLoop (beh : Nat → Step → Outcome) (total : Nat) :
    Nat → List Step → List RunEvent × List ExtractedItem
  | _, [] => ([], [])
  | idx, step :: rest =>
    let d := dispatchStep beh idx total step
    if d.2.2 then (d.1, d.2.1)
    else
      let r := runPlanLoop beh total (idx + 1) rest
      (d.1 ++ r.1, d.2.1 ++ r.2)

/-- `run_action_plan(plan, send_event)` after a successful browser launch
(browser.py:59-103): the initialization status event, the step loop, and the
final completion status event (which is emitted even when the loop was left
by `break`). -/
def run_action_plan (beh : Nat → Step → Outcome) (plan : List Step) :
    List RunEvent × List ExtractedItem :=
  let r := runPlanLoop beh plan.length 0 plan
  (RunEvent.status "Browser initialized" :: r.1 ++ [RunEvent.status "Task completed"], r.2)

example :
    zomatoRatingField (fun sel => if sel = ".rating" then some "4.2 stars" else none) =
      some "4.2" := by decide
example :
    flipkartRatingField (fun sel => if sel = "._3LWZlK" then some "999" else none) =
      some "999" := by decide
example :
    (run_action_plan (fun _ _ => Outcome.exn "boom") [mkStep "navigate"]).1 =
      [RunEvent.status "Browser initialized",
       RunEvent.actionStart "navigate" 1 1,
       RunEvent.error "Error in navigate: boom",
       RunEvent.status "Task completed"] := by decide

/-! ### Supporting lemmas: decimal representations -/

theorem digitChar_toNat {d : Nat} (hd : d < 10) : (Nat.digitChar d).toNat = 48 + d := by
  interval_cases d <;> decide

theorem digitChar_isDigit {d : Nat} (hd : d < 10) : (Nat.digitChar d).isDigit = true := by
  interval_cases d <;> decide

theorem digitsToNat_append_digit (ds : List Char) (c : Char) :
    digitsToNat (ds ++ [c]) = digitsToNat ds * 10 + (c.toNat - 48) := by
  simp [digitsToNat, List.foldl_append]

theorem natDigitsAux_spec :
    ∀ fuel n, n < fuel →
      digitsToNat (natDigitsAux fuel n) = n ∧
      (natDigitsAux fuel n).all Char.isDigit = true ∧
      (n ≠ 0 → natDigitsAux fuel n ≠ []) := by
  intro fuel
  induction fuel with
  | zero => intro n hn; omega
  | succ fuel ih =>
    intro n hn
    by_cases h0 : n = 0
    · subst h0; simp [natDigitsAux, digitsToNat]
    · have hdiv : n / 10 < fuel := by
        have : n / 10 < n := Nat.div_lt_self (Nat.pos_of_ne_zero h0) (by omega)
        omega
      obtain ⟨ih1, ih2, _⟩ := ih (n / 10) hdiv
      have hmod : n % 10 < 10 := Nat.mod_lt _ (by omega)
      refine ⟨?_, ?_, ?_⟩
      · rw [natDigitsAux, if_neg h0, digitsToNat_append_digit, ih1,
          digitChar_toNat hmod]
        omega
      · rw [natDigitsAux, if_neg h0]
        simp only [List.all_append, ih2, Bool.true_and, List.all_cons, List.all_nil,
          Bool.and_true]
        exact digitChar_isDigit hmod
      · intro _
        rw [natDigitsAux, if_neg h0]
        simp

theorem isWhitespace_eq_false_of_isDigit {c : Char} (h : c.isDigit = true) :
    c.isWhitespace = false := by
  by_cases h1 : c = ' '
  · subst h1; exact absurd h (by decide)
  by_cases h2 : c = '\t'
  · subst h2; exact absurd h (by decide)
  by_cases h3 : c = '\r'
  · subst h3; exact absurd h (by decide)
  by_cases h4 : c = '\n'
  · subst h4; exact absurd h (by decide)
  simp [Char.isWhitespace, h1, h2, h3, h4]

theorem ne_dash_of_isDigit {c : Char} (h : c.isDigit = true) : c ≠ '-' := by
  intro he; subst he; exact absurd h (by decide)

theorem ne_plus_of_isDigit {c : Char} (h : c.isDigit = true) : c ≠ '+' := by
  intro he; subst he; exact absurd h (by decide)

theorem dropWhile_isWhitespace_of_digits {cs : List Char}
    (h : cs.all Char.isDigit = true) : cs.dropWhile Char.isWhitespace = cs := by
  cases cs with
  | nil => rfl
  | cons c t =>
    simp only [List.all_cons, Bool.and_eq_true] at h
    simp [List.dropWhile_cons, isWhitespace_eq_false_of_isDigit h.1]

theorem pyStrip_of_digits {cs : List Char} (h : cs.all Char.isDigit = true) :
    pyStrip ⟨cs⟩ = ⟨cs⟩ := by
  have hrev : cs.reverse.all Char.isDigit = true := by
    simpa [List.all_reverse] using h
  simp only [pyStrip]
  rw [dropWhile_isWhitespace_of_digits h,
    dropWhile_isWhitespace_of_digits hrev, List.reverse_reverse]

theorem pyIntCore_of_digits {cs : List Char} (hne : cs ≠ [])
    (h : cs.all Char.isDigit = true) : pyIntCore cs = some ((digitsToNat cs : Int)) := by
  cases cs with
  | nil => exact absurd rfl hne
  | cons c t =>
    have hc : c.isDigit = true := by
      simp only [List.all_cons, Bool.and_eq_true] at h; exact h.1
    rw [pyIntCore, if_neg (ne_dash_of_isDigit hc), if_neg (ne_plus_of_isDigit hc), if_pos h]

theorem pyInt_natRepr (n : Nat) : pyInt (natRepr n) = some ((n : Int)) := by
  by_cases h0 : n = 0
  · subst h0; decide
  · obtain ⟨h1, h2, h3⟩ := natDigitsAux_spec (n + 1) n (Nat.lt_succ_self n)
    rw [natRepr, if_neg h0, pyInt, pyStrip_of_digits h2]
    rw [show (String.mk (natDigitsAux (n + 1) n)).data = natDigitsAux (n + 1) n from rfl]
    rw [pyIntCore_of_digits (h3 h0) h2, h1]

theorem pyInt_intRepr_of_nonneg {i : Int} (h : 0 ≤ i) : pyInt (intRepr i) = some i := by
  rw [intRepr, if_neg (by omega), pyInt_natRepr]
  rw [Int.toNat_of_nonneg h]

/-- The order on decimals agrees with their rational values. -/
theorem Dec10.le_iff_toRat (a b : Dec10) : a.le b = true ↔ a.toRat ≤ b.toRat := by
  simp only [Dec10.le, decide_eq_true_eq, Dec10.toRat]
  rw [div_le_div_iff (by positivity) (by positivity)]
  constructor
  · intro h; exact_mod_cast h
  · intro h; exact_mod_cast h

/-! ### Supporting lemmas: validation and filtering -/

theorem validateOne_spec {site : String} {p : RawItem} {q : ExtractedItem}
    (h : validateOne site p = some q) :
    3 ≤ (pyStrip q.name).length ∧
    (site ≠ "zomato" → ∃ n : Int, 100 ≤ n ∧ q.price = intRepr n ∧ pyInt q.price = some n) ∧
    (site = "zomato" →
      q.price = "" ∨ ∃ n : Int, 0 < n ∧ q.price = intRepr n ∧ pyInt q.price = some n) := by
  simp only [validateOne] at h
  by_cases hg : pyStrip (p.name.getD "") = "" ∨ (pyStrip (p.name.getD "")).length < 3
  · rw [if_pos hg] at h; exact absurd h (by simp)
  rw [if_neg hg] at h
  push_neg at hg
  have hname : ∀ r : ExtractedItem, r.name = p.name.getD "" → 3 ≤ (pyStrip r.name).length := by
    intro r hr; rw [hr]; omega
  cases hv : (if removeChar '₹' (removeChar ',' (p.price.getD "0")) = "" then some (0 : Int)
      else pyInt (removeChar '₹' (removeChar ',' (p.price.getD "0")))) with
  | none =>
    rw [hv] at h
    dsimp only at h
    by_cases hz : site = "zomato"
    · rw [if_pos hz] at h
      injection h with h
      subst h
      refine ⟨hname _ rfl, fun hc => absurd hz hc, fun _ => Or.inl rfl⟩
    · rw [if_neg hz] at h; exact absurd h (by simp)
  | some price_val =>
    rw [hv] at h
    dsimp only at h
    by_cases hz : site = "zomato"
    · rw [if_pos hz] at h
      injection h with h
      subst h
      refine ⟨hname _ rfl, fun hc => absurd hz hc, fun _ => ?_⟩
      by_cases hpos : 0 < price_val
      · right
        exact ⟨price_val, hpos, by simp [hpos],
          by simp only [if_pos hpos]; exact pyInt_intRepr_of_nonneg (le_of_lt hpos)⟩
      · left; simp [hpos]
    · rw [if_neg hz] at h
      by_cases h100 : 100 ≤ price_val
      · rw [if_pos h100] at h
        injection h with h
        subst h
        refine ⟨hname _ rfl, fun _ => ⟨price_val, h100, rfl,
          pyInt_intRepr_of_nonneg (by omega)⟩, fun hc => absurd hc hz⟩
      · rw [if_neg h100] at h; exact absurd h (by simp)

theorem ratingFilterStep_subset {mr : Dec10} {l f : List ExtractedItem}
    (h : ratingFilterStep mr l = some f) : ∀ q ∈ f, q ∈ l := by
  induction l generalizing f with
  | nil =>
    rw [ratingFilterStep] at h
    injection h with h
    subst h
    simp
  | cons p rest ih =>
    rw [ratingFilterStep] at h
    by_cases hr : p.rating = ""
    · rw [if_pos hr] at h
      exact fun q hqf => List.mem_cons_of_mem _ (ih h q hqf)
    · rw [if_neg hr] at h
      cases hpf : pyFloat p.rating with
      | none => rw [hpf] at h; exact absurd h (by simp)
      | some r =>
        rw [hpf] at h
        dsimp only at h
        obtain ⟨l', hl', rfl⟩ := Option.map_eq_some'.mp h
        intro q hq
        by_cases hle : Dec10.le mr r = true
        · rw [if_pos hle] at hq
          rcases List.mem_cons.mp hq with rfl | hq'
          · exact List.mem_cons_self _ _
          · exact List.mem_cons_of_mem _ (ih hl' q hq')
        · rw [if_neg hle] at hq
          exact List.mem_cons_of_mem _ (ih hl' q hq)

theorem priceFilterStep_subset {maxv minv : Int} {l f : List ExtractedItem}
    (h : priceFilterStep maxv minv l = some f) : ∀ q ∈ f, q ∈ l := by
  induction l generalizing f with
  | nil =>
    rw [priceFilterStep] at h
    injection h with h
    subst h
    simp
  | cons p rest ih =>
    rw [priceFilterStep] at h
    by_cases hr : p.price = ""
    · rw [if_pos hr] at h
      obtain ⟨l', hl', rfl⟩ := Option.map_eq_some'.mp h
      intro q hq
      rcases List.mem_cons.mp hq with rfl | hq'
      · exact List.mem_cons_self _ _
      · exact List.mem_cons_of_mem _ (ih hl' q hq')
    · rw [if_neg hr] at h
      cases hpf : pyInt p.price with
      | none => rw [hpf] at h; exact absurd h (by simp)
      | some v =>
        rw [hpf] at h
        dsimp only at h
        obtain ⟨l', hl', rfl⟩ := Option.map_eq_some'.mp h
        intro q hq
        by_cases hin : v ≤ maxv ∧ minv ≤ v
        · rw [if_pos hin] at hq
          rcases List.mem_cons.mp hq with rfl | hq'
          · exact List.mem_cons_self _ _
          · exact List.mem_cons_of_mem _ (ih hl' q hq')
        · rw [if_neg hin] at hq
          exact List.mem_cons_of_mem _ (ih hl' q hq)

theorem ratingStage_subset {step : ExtractStep} {products f : List ExtractedItem}
    {evs : List HandlerEvent} (h : ratingStage step products = some (f, evs)) :
    ∀ q ∈ f, q ∈ products := by
  unfold ratingStage at h
  cases hmr : step.min_rating with
  | none =>
    rw [hmr] at h
    dsimp only at h
    injection h with h
    have hpf : products = f := congrArg Prod.fst h
    intro q hq
    rw [hpf]
    exact hq
  | some mr =>
    rw [hmr] at h
    dsimp only at h
    by_cases hc : mr.num ≠ 0 ∧ step.site = "zomato"
    · rw [if_pos hc] at h
      cases hf : ratingFilterStep mr products with
      | none => rw [hf] at h; exact absurd h (by simp)
      | some f' =>
        rw [hf] at h
        dsimp only at h
        injection h with h
        have hpf : f' = f := congrArg Prod.fst h
        subst hpf
        exact ratingFilterStep_subset hf
    · rw [if_neg hc] at h
      injection h with h
      have hpf : products = f := congrArg Prod.fst h
      intro q hq
      rw [hpf]
      exact hq

theorem priceStage_subset {step : ExtractStep} {filtered1 f : List ExtractedItem}
    {evs : List HandlerEvent} (h : priceStage step filtered1 = some (f, evs)) :
    ∀ q ∈ f, q ∈ filtered1 := by
  unfold priceStage at h
  by_cases hc : (intTruthy step.max_price || intTruthy step.min_price) = true ∧
      step.site ≠ "zomato"
  · rw [if_pos hc] at h
    cases hf : priceFilterStep (maxBound999 step.max_price) (minBound0 step.min_price) filtered1 with
    | none => rw [hf] at h; exact absurd h (by simp)
    | some f' =>
      rw [hf] at h
      dsimp only at h
      injection h with h
      have hpf : f' = f := congrArg Prod.fst h
      subst hpf
      exact priceFilterStep_subset hf
  · rw [if_neg hc] at h
    injection h with h
    have hpf : filtered1 = f := congrArg Prod.fst h
    intro q hq
    rw [hpf]
    exact hq

theorem handle_extract_subset {step : ExtractStep} {raw : List RawItem} {q : ExtractedItem}
    (hq : q ∈ (handle_extract_products step raw).1) :
    q ∈ validateProducts step.site raw := by
  simp only [handle_extract_products] at hq
  cases hrs : ratingStage step (validateProducts step.site raw) with
  | none => rw [hrs] at hq; simp at hq
  | some f1 =>
    obtain ⟨filtered1, evs1⟩ := f1
    rw [hrs] at hq
    dsimp only at hq
    cases hps : priceStage step filtered1 with
    | none => rw [hps] at hq; simp at hq
    | some f2 =>
      obtain ⟨filtered2, evs2⟩ := f2
      rw [hps] at hq
      dsimp only at hq
      have h2 : q ∈ filtered2 := List.take_subset _ _ hq
      exact ratingStage_subset hrs q (priceStage_subset hps q h2)

/-! ### Claims C1, C2 -/

/-- C1: every `ExtractedItem` appended to `Results` by an `extract_products`
step satisfies the active site's validity predicate: for a generic-product
site (site tag other than `"zomato"`, default `"flipkart"`) the item's
stripped name has at least 3 characters and its price is the decimal string
of a parsed integer that is at least 100; for the listing site (`"zomato"`)
the stripped name has at least 3 characters while the price is optional —
either the empty-string sentinel or the decimal string of a positive parsed
integer (rating/url are likewise defaulted to sentinels by the validation
loop). -/
theorem claim_C1 {step : ExtractStep} {raw : List RawItem} {q : ExtractedItem}
    (hq : q ∈ (handle_extract_products step raw).1) :
    3 ≤ (pyStrip q.name).length ∧
    (step.site ≠ "zomato" →
      ∃ n : Int, 100 ≤ n ∧ q.price = intRepr n ∧ pyInt q.price = some n) ∧
    (step.site = "zomato" →
      q.price = "" ∨ ∃ n : Int, 0 < n ∧ q.price = intRepr n ∧ pyInt q.price = some n) := by
  have hmem := handle_extract_subset hq
  obtain ⟨p, _, hvp⟩ := List.mem_filterMap.mp hmem
  exact validateOne_spec hvp

/-- A concrete flipkart extraction input used by the C1 witness. -/
def c1Step : ExtractStep :=
  ⟨3, "flipkart", none, none, none⟩

/-- The raw in-page extraction result used by the C1 witness. -/
def c1Raw : List RawItem :=
  [⟨some "MacBook Air M2", some "₹45,999", some "4.5", some "u"⟩]

/-- The validated item produced from `c1Raw`. -/
def c1Item : ExtractedItem :=
  ⟨"MacBook Air M2", "45999", "4.5", "u"⟩

/-- C1 witness: on the concrete flipkart run `c1Step`/`c1Raw`, the theorem's
hypothesis holds and its conclusion evaluates. -/
theorem claim_C1_witness :
    c1Item ∈ (handle_extract_products c1Step c1Raw).1 ∧
    (3 ≤ (pyStrip c1Item.name).length ∧
     (c1Step.site ≠ "zomato" →
       ∃ n : Int, 100 ≤ n ∧ c1Item.price = intRepr n ∧ pyInt c1Item.price = some n) ∧
     (c1Step.site = "zomato" →
       c1Item.price = "" ∨
       ∃ n : Int, 0 < n ∧ c1Item.price = intRepr n ∧ pyInt c1Item.price = some n)) :=
  ⟨by decide, @claim_C1 c1Step c1Raw c1Item (by decide)⟩

/-- C2: the list of items an `extract_products` step contributes to `Results`
is a truncation of the surviving (validated and filtered) items to the first
`count` of them; in particular its length never exceeds the step's requested
count. -/
theorem claim_C2 (step : ExtractStep) (raw : List RawItem) :
    (∃ surviving : List ExtractedItem,
      (handle_extract_products step raw).1 = surviving.take step.count) ∧
    (handle_extract_products step raw).1.length ≤ step.count := by
  simp only [handle_extract_products]
  cases hrs : ratingStage step (validateProducts step.site raw) with
  | none => exact ⟨⟨[], by simp⟩, by simp⟩
  | some f1 =>
    obtain ⟨filtered1, evs1⟩ := f1
    dsimp only
    cases hps : priceStage step filtered1 with
    | none => exact ⟨⟨[], by simp⟩, by simp⟩
    | some f2 =>
      obtain ⟨filtered2, evs2⟩ := f2
      dsimp only
      exact ⟨⟨filtered2, rfl⟩, List.length_take_le _ _⟩

/-! ### Claim C6 -/

/-- The predicate the rating-filter comprehension keeps (when no parse
exception occurs): the rating is present (non-empty) and at least the
threshold. -/
def ratingPass (mr : Dec10) (p : ExtractedItem) : Bool :=
  p.rating ≠ "" && Dec10.le mr ((pyFloat p.rating).getD ⟨0, 0⟩)

theorem ratingFilterStep_eq_filter {mr : Dec10} {l : List ExtractedItem}
    (h : ∀ p ∈ l, p.rating = "" ∨ (pyFloat p.rating).isSome = true) :
    ratingFilterStep mr l = some (l.filter (ratingPass mr)) := by
  induction l with
  | nil => rfl
  | cons p rest ih =>
    have hrest : ∀ q ∈ rest, q.rating = "" ∨ (pyFloat q.rating).isSome = true :=
      fun q hq => h q (List.mem_cons_of_mem _ hq)
    have ihr := ih hrest
    rw [ratingFilterStep]
    by_cases hr : p.rating = ""
    · rw [if_pos hr, ihr]
      have : ratingPass mr p = false := by
        simp [ratingPass, hr]
      simp [List.filter_cons, this]
    · rw [if_neg hr]
      rcases h p (List.mem_cons_self _ _) with he | hs
      · exact absurd he hr
      · obtain ⟨r, hrr⟩ := Option.isSome_iff_exists.mp hs
        rw [hrr]
        dsimp only
        rw [ihr]
        simp only [Option.map_some']
        by_cases hle : Dec10.le mr r = true
        · have : ratingPass mr p = true := by
            simp [ratingPass, hr, hrr, hle]
          simp [List.filter_cons, this, if_pos hle]
        · have : ratingPass mr p = false := by
            simp only [ratingPass, hrr, Option.getD_some, Bool.and_eq_false_iff]
            right
            exact Bool.not_eq_true _ ▸ (by simpa using hle)
          simp [List.filter_cons, this, if_neg hle]

/-- C6: for an `extract_products` step with a truthy `min_rating` and site
`"zomato"` (listing), provided every validated item's rating is either absent
or parseable (as is the case for ratings produced by the extraction scripts),
the items whose rating is missing or below the threshold are dropped before
truncation — the step returns the surviving items truncated to `count` — and
a filter-result event reporting the surviving count is emitted. -/
theorem claim_C6 {step : ExtractStep} {raw : List RawItem} {mr : Dec10}
    (hmr : step.min_rating = some mr) (h0 : mr.num ≠ 0) (hsite : step.site = "zomato")
    (hparse : ∀ p ∈ validateProducts step.site raw,
      p.rating = "" ∨ (pyFloat p.rating).isSome = true) :
    (handle_extract_products step raw).1 =
      ((validateProducts step.site raw).filter (ratingPass mr)).take step.count ∧
    HandlerEvent.action "filter_rating"
        ("Filtered: " ++
          natRepr ((validateProducts step.site raw).filter (ratingPass mr)).length ++
          " restaurants") ∈
      (handle_extract_products step raw).2 := by
  have hrs : ratingStage step (validateProducts step.site raw) =
      some ((validateProducts step.site raw).filter (ratingPass mr),
        [HandlerEvent.action "filter_rating"
          ("Filtered: " ++
            natRepr ((validateProducts step.site raw).filter (ratingPass mr)).length ++
            " restaurants")]) := by
    unfold ratingStage
    rw [hmr]
    dsimp only
    rw [if_pos ⟨h0, hsite⟩, ratingFilterStep_eq_filter hparse]
  have hps : priceStage step ((validateProducts step.site raw).filter (ratingPass mr)) =
      some ((validateProducts step.site raw).filter (ratingPass mr), []) := by
    unfold priceStage
    rw [if_neg]
    intro hc
    exact hc.2 hsite
  simp only [handle_extract_products]
  rw [hrs]
  dsimp only
  rw [hps]
  dsimp only
  refine ⟨rfl, ?_⟩
  simp

/-- The concrete zomato extraction step used by the C6 witness: `min_rating`
4.0, requested count 10. -/
def c6Step : ExtractStep :=
  ⟨10, "zomato", some ⟨40, 1⟩, none, none⟩

/-- Five raw candidate containers, two of which carry a rating of at least
4.0 (one rating is absent). -/
def c6Raw : List RawItem :=
  [⟨some "Cafe One", some "", some "4.5", some "u1"⟩,
   ⟨some "Cafe Two", none, some "3.9", none⟩,
   ⟨some "Cafe Three", none, some "4.0", none⟩,
   ⟨some "Cafe Four", none, none, none⟩,
   ⟨some "Cafe Five", none, some "3.2", none⟩]

/-- C6 witness: on the concrete scenario (5 valid candidates, 2 with rating
at least 4.0, threshold 4.0) exactly 2 items survive, the step returns them,
and the filter-result event reports count 2. -/
theorem claim_C6_witness :
    ((validateProducts c6Step.site c6Raw).filter (ratingPass ⟨40, 1⟩)).length = 2 ∧
    ((handle_extract_products c6Step c6Raw).1 =
      ((validateProducts c6Step.site c6Raw).filter (ratingPass ⟨40, 1⟩)).take c6Step.count ∧
     HandlerEvent.action "filter_rating"
        ("Filtered: " ++
          natRepr ((validateProducts c6Step.site c6Raw).filter (ratingPass ⟨40, 1⟩)).length ++
          " restaurants") ∈
      (handle_extract_products c6Step c6Raw).2) :=
  ⟨by decide, @claim_C6 c6Step c6Raw ⟨40, 1⟩ (by decide) (by decide) (by decide) (by decide)⟩

/-! ### Claim C7 -/

/-- A flipkart container whose rating element's text is the out-of-range
number 999. -/
def c7BadContainer : String → Option String :=
  fun sel => if sel = "._3LWZlK" then some "999" else none

/-- C7 counterexample: the flipkart (generic-product) extraction script
accepts the rating text `"999"` although its numeric value lies outside
`[1, 5]` — refuting the claim that both site tags only accept ratings that
parse into `[1, 5]`. -/
theorem claim_C7_counterexample :
    flipkartRatingField c7BadContainer = some "999" ∧
    jsParseFloat "999" = some ⟨999, 0⟩ ∧
    Dec10.le ⟨999, 0⟩ (Dec10.ofNat 5) = false := by
  decide

/-- C7 amended: only the listing (zomato) extraction script restricts the
rating field to decimals parsing into `[1, 5]`; every rating it accepts, for
every container, parses into that interval.  (The generic-product flipkart
script accepts the first decimal match without a range check, as the
counterexample shows.) -/
theorem claim_C7_amended (query : String → Option String) (r : String)
    (h : zomatoRatingField query = some r) :
    ∃ v : Dec10, jsParseFloat r = some v ∧
      Dec10.le (Dec10.ofNat 1) v = true ∧ Dec10.le v (Dec10.ofNat 5) = true := by
  unfold zomatoRatingField at h
  generalize zomatoRatingSelectors = sels at h
  induction sels with
  | nil => rw [zomatoRatingLoop] at h; exact absurd h (by simp)
  | cons sel rest ih =>
    rw [zomatoRatingLoop] at h
    cases hq : query sel with
    | none => rw [hq] at h; exact ih h
    | some text =>
      rw [hq] at h
      dsimp only at h
      cases hrun : firstNumRun text with
      | none => rw [hrun] at h; exact ih h
      | some run =>
        rw [hrun] at h
        dsimp only at h
        cases hv : jsParseFloat run with
        | none => rw [hv] at h; exact ih h
        | some v =>
          rw [hv] at h
          dsimp only at h
          by_cases hin : Dec10.le (Dec10.ofNat 1) v = true ∧ Dec10.le v (Dec10.ofNat 5) = true
          · rw [if_pos hin] at h
            injection h with h
            subst h
            exact ⟨v, hv, hin.1, hin.2⟩
          · rw [if_neg hin] at h
            exact ih h

/-- A zomato container whose rating element's text carries an in-range
rating. -/
def c7GoodContainer : String → Option String :=
  fun sel => if sel = ".rating" then some "4.2 stars" else none

/-- C7 witness: the zomato script accepts `"4.2"` from a concrete container,
and the amended theorem yields its in-range parsed value. -/
theorem claim_C7_witness :
    zomatoRatingField c7GoodContainer = some "4.2" ∧
    (∃ v : Dec10, jsParseFloat "4.2" = some v ∧
      Dec10.le (Dec10.ofNat 1) v = true ∧ Dec10.le v (Dec10.ofNat 5) = true) :=
  ⟨by decide, claim_C7_amended c7GoodContainer "4.2" (by decide)⟩

/-! ### Supporting lemmas: resolver -/

theorem countFailed_append (a b : List ResolverEvent) :
    countFailed (a ++ b) = countFailed a + countFailed b := by
  simp [countFailed, List.filter_append]

theorem tryCandidate_success0 {ε : Type} {wait : String → Nat → Option ε} {sel : String}
    {e : ε} (h : wait sel 0 = some e) :
    tryCandidate wait sel = (some e, [ResolverEvent.attempt sel 0 true]) := by
  rw [tryCandidate, show List.range MAX_RETRIES = [0, 1, 2] from rfl, attemptsRun, h]

theorem tryCandidate_all_fail {ε : Type} {wait : String → Nat → Option ε} {sel : String}
    (h : ∀ a, a < MAX_RETRIES → wait sel a = none) :
    tryCandidate wait sel =
      (none,
       [ResolverEvent.attempt sel 0 false, ResolverEvent.sleep (RETRY_DELAY.mulNat 1),
        ResolverEvent.attempt sel 1 false, ResolverEvent.sleep (RETRY_DELAY.mulNat 2),
        ResolverEvent.attempt sel 2 false]) := by
  have h0 := h 0 (by decide)
  have h1 := h 1 (by decide)
  have h2 := h 2 (by decide)
  simp [tryCandidate, show List.range MAX_RETRIES = [0, 1, 2] from rfl,
    attemptsRun, h0, h1, h2, MAX_RETRIES]

theorem resolveCandidates_skip_fail {ε : Type} (wait : String → Nat → Option ε) :
    ∀ (cs : List String) (K : Nat) (hK : K < cs.length) (e : ε),
      (∀ i (hi : i < K), ∀ a, a < MAX_RETRIES →
        wait (cs.get ⟨i, Nat.lt_trans hi hK⟩) a = none) →
      wait (cs.get ⟨K, hK⟩) 0 = some e →
      (resolveCandidates wait cs).1 = some e ∧
      countFailed (resolveCandidates wait cs).2 = K * MAX_RETRIES := by
  intro cs
  induction cs with
  | nil => intro K hK; exact absurd hK (by simp)
  | cons c rest ih =>
    intro K hK e hfail hsucc
    cases K with
    | zero =>
      have hc : wait c 0 = some e := hsucc
      rw [resolveCandidates]
      dsimp only
      rw [tryCandidate_success0 hc]
      exact ⟨rfl, by simp [countFailed]⟩
    | succ K' =>
      have hallc : ∀ a, a < MAX_RETRIES → wait c a = none :=
        fun a ha => hfail 0 (Nat.succ_pos _) a ha
      have hK' : K' < rest.length := by
        simpa using Nat.lt_of_succ_lt_succ hK
      have ihr := ih K' hK' e
        (fun i hi a ha => hfail (i + 1) (Nat.succ_lt_succ hi) a ha) hsucc
      rw [resolveCandidates]
      dsimp only
      rw [tryCandidate_all_fail hallc]
      dsimp only
      refine ⟨ihr.1, ?_⟩
      rw [countFailed_append, ihr.2]
      simp only [countFailed, List.filter, List.length]
      rw [show MAX_RETRIES = 3 from rfl]
      omega

theorem attemptsRun_none_all {ε : Type} (wait : String → Nat → Option ε) (sel : String)
    (maxr : Nat) :
    ∀ l : List Nat, (attemptsRun wait sel maxr l).1 = none → ∀ a ∈ l, wait sel a = none := by
  intro l
  induction l with
  | nil => intro _ a ha; exact absurd ha (List.not_mem_nil a)
  | cons b rest ih =>
    intro h a ha
    rw [attemptsRun] at h
    cases hw : wait sel b with
    | some e => rw [hw] at h; exact absurd h (by simp)
    | none =>
      rw [hw] at h
      dsimp only at h
      have hr : (attemptsRun wait sel maxr rest).1 = none := by
        by_cases hb : b < maxr - 1
        · rw [if_pos hb] at h; exact h
        · rw [if_neg hb] at h; exact h
      rcases List.mem_cons.mp ha with rfl | ha'
      · exact hw
      · exact ih hr a ha'

theorem resolveCandidates_none_exhausted {ε : Type} (wait : String → Nat → Option ε) :
    ∀ cs : List String, (resolveCandidates wait cs).1 = none →
      ∀ sel ∈ cs, ∀ a, a < MAX_RETRIES → wait sel a = none := by
  intro cs
  induction cs with
  | nil => intro _ sel hsel; exact absurd hsel (List.not_mem_nil sel)
  | cons c rest ih =>
    intro h sel hsel a ha
    rw [resolveCandidates] at h
    dsimp only at h
    cases ht : (tryCandidate wait c).1 with
    | some e => rw [ht] at h; exact absurd h (by simp)
    | none =>
      rw [ht] at h
      dsimp only at h
      rcases List.mem_cons.mp hsel with rfl | hsel'
      · exact attemptsRun_none_all wait sel MAX_RETRIES (List.range MAX_RETRIES) ht a
          (List.mem_range.mpr ha)
      · exact ih h sel hsel' a ha

/-! ### Claims C3, C8 -/

/-- C3: the resolver tries candidates strictly in the given order with up to
`MAX_RETRIES = 3` visibility attempts per candidate.  If the first `K`
candidates never become visible within the timeout on any attempt and
candidate `K + 1` is visible when waited for, the resolver returns that
element and exactly `K * 3` failed attempts occur before the success.  It
returns `none` only when every candidate has exhausted all of its attempts
without becoming visible. -/
theorem claim_C3 {ε : Type} (wait : String → Nat → Option ε) (selectors : String)
    (cs : List String) (hcs : splitCandidates selectors = cs) :
    (∀ (K : Nat) (hK : K < cs.length) (e : ε),
      (∀ i (hi : i < K), ∀ a, a < MAX_RETRIES →
        wait (cs.get ⟨i, Nat.lt_trans hi hK⟩) a = none) →
      wait (cs.get ⟨K, hK⟩) 0 = some e →
      find_selector_with_retry wait selectors = some e ∧
      countFailed (resolveCandidates wait cs).2 = K * MAX_RETRIES) ∧
    (find_selector_with_retry wait selectors = none →
      ∀ sel ∈ cs, ∀ a, a < MAX_RETRIES → wait sel a = none) := by
  rw [find_selector_with_retry, hcs]
  exact ⟨fun K hK e hfail hsucc => resolveCandidates_skip_fail wait cs K hK e hfail hsucc,
    fun h => resolveCandidates_none_exhausted wait cs h⟩

/-- The page oracle of the C3 witness: `"#a"` never becomes visible, `"#b"`
is visible on every attempt. -/
def c3Wait : String → Nat → Option Unit :=
  fun sel _ => if sel = "#b" then some () else none

/-- C3 witness: with candidates `"#a,#b"`, where `"#a"` never appears and
`"#b"` appears, the resolver returns the `"#b"` element after exactly
`1 * 3` failed attempts. -/
theorem claim_C3_witness :
    find_selector_with_retry c3Wait "#a,#b" = some () ∧
    countFailed (resolveCandidates c3Wait ["#a", "#b"]).2 = 1 * MAX_RETRIES :=
  (claim_C3 c3Wait "#a,#b" ["#a", "#b"] (by decide)).1 1 (by decide) ()
    (by decide) (by decide)

theorem attemptsRun_sleeps {ε : Type} (wait : String → Nat → Option ε) (sel : String)
    (maxr : Nat) :
    ∀ l : List Nat, (∀ a ∈ l, wait sel a = none) →
      sleepsOf (attemptsRun wait sel maxr l).2 =
        (l.filter (fun a => decide (a < maxr - 1))).map (fun a => RETRY_DELAY.mulNat (a + 1)) := by
  intro l
  induction l with
  | nil => intro _; rfl
  | cons b rest ih =>
    intro h
    have hb := h b (List.mem_cons_self _ _)
    have ihr := ih (fun a ha => h a (List.mem_cons_of_mem _ ha))
    rw [attemptsRun, hb]
    dsimp only
    by_cases hlt : b < maxr - 1
    · rw [if_pos hlt]
      simp only [sleepsOf, List.filterMap_cons] at ihr ⊢
      rw [List.filter_cons, if_pos (by simpa using hlt)]
      simp [ihr]
    · rw [if_neg hlt]
      simp only [sleepsOf, List.filterMap_cons] at ihr ⊢
      rw [List.filter_cons, if_neg (by simpa using hlt)]
      simp [ihr]

theorem range_filter_lt_pred (n : Nat) :
    (List.range n).filter (fun a => decide (a < n - 1)) = List.range (n - 1) := by
  cases n with
  | zero => rfl
  | succ m =>
    rw [List.range_succ, List.filter_append]
    have h1 : (List.range m).filter (fun a => decide (a < m + 1 - 1)) = List.range m := by
      apply List.filter_eq_self.mpr
      intro a ha
      simp only [decide_eq_true_eq]
      have := List.mem_range.mp ha
      omega
    have h2 : ([m].filter (fun a => decide (a < m + 1 - 1))) = [] := by
      simp
    rw [h1, h2, List.append_nil]
    rfl

/-- C8: the backoff between consecutive attempts on the same candidate is
linear: after the `a`-th failed attempt (0-based) the resolver sleeps
`RETRY_DELAY * (a + 1)` seconds with `RETRY_DELAY` = 1.0 second — i.e. 1 s
after the first failed attempt and 2 s after the second — and no delay
follows a candidate's final attempt.  The general form (for any retry bound
`n`, sleeps are `1·d, 2·d, …, (n-1)·d`) exhibits linearity, and the decimal
`RETRY_DELAY.mulNat (a + 1)` has rational value `a + 1` seconds. -/
theorem claim_C8 {ε : Type} (wait : String → Nat → Option ε) (sel : String) :
    ((∀ a, a < MAX_RETRIES → wait sel a = none) →
      (tryCandidate wait sel).2 =
        [ResolverEvent.attempt sel 0 false, ResolverEvent.sleep (RETRY_DELAY.mulNat 1),
         ResolverEvent.attempt sel 1 false, ResolverEvent.sleep (RETRY_DELAY.mulNat 2),
         ResolverEvent.attempt sel 2 false]) ∧
    (∀ n : Nat, (∀ a, a < n → wait sel a = none) →
      sleepsOf (attemptsRun wait sel n (List.range n)).2 =
        (List.range (n - 1)).map (fun a => RETRY_DELAY.mulNat (a + 1))) ∧
    (∀ a : Nat, (RETRY_DELAY.mulNat (a + 1)).toRat = (a : ℚ) + 1) := by
  refine ⟨fun h => by rw [tryCandidate_all_fail h], fun n h => ?_, fun a => ?_⟩
  · rw [attemptsRun_sleeps wait sel n (List.range n)
      (fun a ha => h a (List.mem_range.mp ha)), range_filter_lt_pred]
  · simp [RETRY_DELAY, Dec10.mulNat, Dec10.toRat]

/-- C8 witness: on a page where `"#x"` never becomes visible, the trace of
one candidate is attempt, 1 s sleep, attempt, 2 s sleep, attempt — no sleep
after the final attempt. -/
theorem claim_C8_witness :
    (tryCandidate (fun (_ : String) (_ : Nat) => (none : Option Unit)) "#x").2 =
      [ResolverEvent.attempt "#x" 0 false, ResolverEvent.sleep (RETRY_DELAY.mulNat 1),
       ResolverEvent.attempt "#x" 1 false, ResolverEvent.sleep (RETRY_DELAY.mulNat 2),
       ResolverEvent.attempt "#x" 2 false] :=
  (claim_C8 (fun _ _ => none) "#x").1 (fun _ _ => rfl)

/-! ### Supporting lemmas: dispatcher -/

theorem toRun_ne_actionStart (ev : HandlerEvent) (a : String) (s t : Nat) :
    ev.toRun ≠ RunEvent.actionStart a s t := by
  cases ev <;> simp [HandlerEvent.toRun]

theorem unsupported_not_known : "unsupported" ∉ knownActions := by decide

theorem dispatchStep_stop_false {beh : Nat → Step → Outcome} {idx total : Nat} {step : Step}
    (h : step.action ≠ "unsupported") :
    (dispatchStep beh idx total step).2.2 = false := by
  unfold dispatchStep
  rw [if_neg h]
  by_cases hk : step.action ∈ knownActions
  · rw [if_pos hk]
    cases beh idx step <;> rfl
  · rw [if_neg hk]

theorem mem_dispatchStep_actionStart {beh : Nat → Step → Outcome} {idx total : Nat}
    {step : Step} {a : String} {s t : Nat}
    (h : RunEvent.actionStart a s t ∈ (dispatchStep beh idx total step).1) : s = idx + 1 := by
  unfold dispatchStep at h
  by_cases hu : step.action = "unsupported"
  · rw [if_pos hu] at h
    dsimp only at h
    rcases List.mem_cons.mp h with heq | h2
    · injection heq
    · rcases List.mem_cons.mp h2 with heq | h3
      · exact absurd heq (by simp)
      · exact absurd h3 (List.not_mem_nil _)
  · rw [if_neg hu] at h
    by_cases hk : step.action ∈ knownActions
    · rw [if_pos hk] at h
      cases hb : beh idx step with
      | ok evs items =>
        rw [hb] at h
        dsimp only at h
        rcases List.mem_cons.mp h with heq | h2
        · injection heq
        · rcases List.mem_append.mp h2 with h3 | h4
          · obtain ⟨ev, _, hev⟩ := List.mem_map.mp h3
            exact absurd hev (toRun_ne_actionStart ev a s t)
          · rcases List.mem_cons.mp h4 with heq | h5
            · exact absurd heq (by simp)
            · exact absurd h5 (List.not_mem_nil _)
      | exn msg =>
        rw [hb] at h
        dsimp only at h
        rcases List.mem_cons.mp h with heq | h2
        · injection heq
        · rcases List.mem_cons.mp h2 with heq | h3
          · exact absurd heq (by simp)
          · exact absurd h3 (List.not_mem_nil _)
    · rw [if_neg hk] at h
      dsimp only at h
      rcases List.mem_cons.mp h with heq | h2
      · injection heq
      · rcases List.mem_cons.mp h2 with heq | h3
        · exact absurd heq (by simp)
        · exact absurd h3 (List.not_mem_nil _)

theorem runPlanLoop_unsupported {beh : Nat → Step → Outcome} {total : Nat} :
    ∀ (plan : List Step) (idx i : Nat) (hi : i < plan.length),
      (plan.get ⟨i, hi⟩).action = "unsupported" →
      (∀ j (hj : j < i), (plan.get ⟨j, Nat.lt_trans hj hi⟩).action ≠ "unsupported") →
      ∃ pre : List RunEvent,
        (runPlanLoop beh total idx plan).1 =
          pre ++ [RunEvent.actionStart "unsupported" (idx + i + 1) total,
                  RunEvent.error (plan.get ⟨i, hi⟩).reason] ∧
        (∀ a s t, RunEvent.actionStart a s t ∈ (runPlanLoop beh total idx plan).1 →
          s ≤ idx + i + 1) := by
  intro plan
  induction plan with
  | nil => intro idx i hi; exact absurd hi (by simp)
  | cons step rest ih =>
    intro idx i hi hu hfirst
    cases i with
    | zero =>
      have hstep : step.action = "unsupported" := hu
      have hd : dispatchStep beh idx total step =
          ([RunEvent.actionStart step.action (idx + 1) total, RunEvent.error step.reason],
           [], true) := by
        unfold dispatchStep
        rw [if_pos hstep]
      refine ⟨[], ?_, ?_⟩
      · rw [runPlanLoop, hd]
        dsimp only
        rw [hstep]
        simp
      · intro a s t hmem
        rw [runPlanLoop, hd] at hmem
        dsimp only at hmem
        rcases List.mem_cons.mp hmem with heq | h2
        · injection heq with h1 h2 h3; omega
        · rcases List.mem_cons.mp h2 with heq | h3
          · exact absurd heq (by simp)
          · exact absurd h3 (List.not_mem_nil _)
    | succ i' =>
      have hne : step.action ≠ "unsupported" := hfirst 0 (Nat.succ_pos _)
      have hi' : i' < rest.length := by simpa using Nat.lt_of_succ_lt_succ hi
      obtain ⟨pre', hpre', hbound'⟩ := ih (idx + 1) i' hi' hu
        (fun j hj => hfirst (j + 1) (Nat.succ_lt_succ hj))
      have hstop := @dispatchStep_stop_false beh idx total step hne
      have hloop : (runPlanLoop beh total idx (step :: rest)).1 =
          (dispatchStep beh idx total step).1 ++ (runPlanLoop beh total (idx + 1) rest).1 := by
        rw [runPlanLoop]
        dsimp only
        rw [if_neg (by rw [hstop]; exact Bool.false_ne_true)]
      refine ⟨(dispatchStep beh idx total step).1 ++ pre', ?_, ?_⟩
      · rw [hloop, hpre']
        have harith : idx + 1 + i' + 1 = idx + (i' + 1) + 1 := by omega
        rw [harith, List.append_assoc]
        rfl
      · intro a s t hmem
        rw [hloop] at hmem
        rcases List.mem_append.mp hmem with h1 | h2
        · have := mem_dispatchStep_actionStart h1
          omega
        · have := hbound' a s t h2
          omega

/-! ### Claims C4, C5 -/

/-- C4 counterexample: a one-step plan whose handler raises.  The dispatcher
emits ActionStart and the Error event and then `continue`s — no
ActionComplete event is ever emitted for the failed step, refuting the claim
that ActionComplete follows every step also on a recovered handler
failure. -/
theorem claim_C4_counterexample :
    RunEvent.actionComplete "navigate" ∉
      (run_action_plan (fun _ _ => Outcome.exn "boom") [mkStep "navigate"]).1 := by
  decide

/-- C4 amended: per-step event ordering of the dispatcher.  For a step with
a known action: when its handler returns normally the step's block is
ActionStart, the handler's events, then ActionComplete; when the handler
raises, the block is ActionStart then the Error event and no ActionComplete
is emitted for that step (the `continue` at browser.py:99 skips
browser.py:101).  Blocks of consecutive steps are concatenated in plan
order. -/
theorem claim_C4 (beh : Nat → Step → Outcome) (idx total : Nat) (step : Step)
    (hk : step.action ∈ knownActions) :
    (∀ evs items, beh idx step = Outcome.ok evs items →
      dispatchStep beh idx total step =
        (RunEvent.actionStart step.action (idx + 1) total ::
          evs.map HandlerEvent.toRun ++ [RunEvent.actionComplete step.action],
         if step.action = "extract_products" then items else [], false)) ∧
    (∀ msg, beh idx step = Outcome.exn msg →
      dispatchStep beh idx total step =
        ([RunEvent.actionStart step.action (idx + 1) total,
          RunEvent.error ("Error in " ++ step.action ++ ": " ++ msg)], [], false) ∧
      RunEvent.actionComplete step.action ∉ (dispatchStep beh idx total step).1) ∧
    (∀ rest : List Step,
      runPlanLoop beh total idx (step :: rest) =
        ((dispatchStep beh idx total step).1 ++ (runPlanLoop beh total (idx + 1) rest).1,
         (dispatchStep beh idx total step).2.1 ++ (runPlanLoop beh total (idx + 1) rest).2)) := by
  have hne : step.action ≠ "unsupported" := by
    intro h
    rw [h] at hk
    exact absurd hk unsupported_not_known
  refine ⟨?_, ?_, ?_⟩
  · intro evs items hb
    unfold dispatchStep
    rw [if_neg hne, if_pos hk, hb]
    rfl
  · intro msg hb
    have hd : dispatchStep beh idx total step =
        ([RunEvent.actionStart step.action (idx + 1) total,
          RunEvent.error ("Error in " ++ step.action ++ ": " ++ msg)], [], false) := by
      unfold dispatchStep
      rw [if_neg hne, if_pos hk, hb]
    refine ⟨hd, ?_⟩
    rw [hd]
    intro hmem
    rcases List.mem_cons.mp hmem with heq | h2
    · exact absurd heq (by simp)
    · rcases List.mem_cons.mp h2 with heq | h3
      · exact absurd heq (by simp)
      · exact absurd h3 (List.not_mem_nil _)
  · intro rest
    rw [runPlanLoop]
    dsimp only
    rw [if_neg (by rw [dispatchStep_stop_false hne]; exact Bool.false_ne_true)]

/-- C4 witness: applying the amended theorem to a concrete one-step plan
whose handler succeeds. -/
theorem claim_C4_witness :
    dispatchStep (fun _ _ => Outcome.ok [HandlerEvent.action "navigate" "going"] []) 0 1
        (mkStep "navigate") =
      (RunEvent.actionStart (mkStep "navigate").action 1 1 ::
        [HandlerEvent.action "navigate" "going"].map HandlerEvent.toRun ++
        [RunEvent.actionComplete (mkStep "navigate").action],
       if (mkStep "navigate").action = "extract_products"
         then ([] : List ExtractedItem) else [], false) :=
  (claim_C4 (fun _ _ => Outcome.ok [HandlerEvent.action "navigate" "going"] []) 0 1
    (mkStep "navigate") (by decide)).1 [HandlerEvent.action "navigate" "going"] [] rfl

/-- C5: when the first `unsupported` step of a plan sits at index `i`, the
dispatcher run consists of the initialization status, the blocks of steps
`0..i-1`, then ActionStart for the unsupported step immediately followed by
exactly one Error event carrying the step's reason, and the final completion
status — and no ActionStart is ever emitted with a step number beyond
`i + 1` (the `break` at browser.py:93 stops the loop). -/
theorem claim_C5 (beh : Nat → Step → Outcome) (plan : List Step) (i : Nat)
    (hi : i < plan.length) (hu : (plan.get ⟨i, hi⟩).action = "unsupported")
    (hfirst : ∀ j (hj : j < i), (plan.get ⟨j, Nat.lt_trans hj hi⟩).action ≠ "unsupported") :
    (∃ pre : List RunEvent,
      (run_action_plan beh plan).1 =
        RunEvent.status "Browser initialized" :: pre ++
          [RunEvent.actionStart "unsupported" (i + 1) plan.length,
           RunEvent.error (plan.get ⟨i, hi⟩).reason,
           RunEvent.status "Task completed"]) ∧
    (∀ a s t, RunEvent.actionStart a s t ∈ (run_action_plan beh plan).1 → s ≤ i + 1) := by
  obtain ⟨pre, hpre, hbound⟩ :=
    @runPlanLoop_unsupported beh plan.length plan 0 i hi hu hfirst
  constructor
  · refine ⟨pre, ?_⟩
    unfold run_action_plan
    dsimp only
    rw [hpre]
    have h0 : 0 + i + 1 = i + 1 := by omega
    rw [h0]
    simp
  · intro a s t hmem
    unfold run_action_plan at hmem
    dsimp only at hmem
    rcases List.mem_cons.mp hmem with heq | h2
    · exact absurd heq (by simp)
    · rcases List.mem_append.mp h2 with h3 | h4
      · have := hbound a s t h3
        omega
      · rcases List.mem_cons.mp h4 with heq | h5
        · exact absurd heq (by simp)
        · exact absurd h5 (List.not_mem_nil _)

/-- The behavior oracle of the C5 witness: every handler returns normally
with no events. -/
def c5Beh : Nat → Step → Outcome :=
  fun _ _ => Outcome.ok [] []

/-- The plan of the C5 witness: an unsupported step at index 2 of 5. -/
def c5Plan : List Step :=
  [mkStep "navigate", mkStep "click",
   ⟨"unsupported", "Intent not handled", "", "", false⟩,
   mkStep "type", mkStep "extract_products"]

/-- C5 witness: on the concrete 5-step plan with the unsupported step at
index 2, the theorem applies; its conclusion pins the single Error event and
bounds every ActionStart step number by 3. -/
theorem claim_C5_witness :
    (∃ pre : List RunEvent,
      (run_action_plan c5Beh c5Plan).1 =
        RunEvent.status "Browser initialized" :: pre ++
          [RunEvent.actionStart "unsupported" (2 + 1) c5Plan.length,
           RunEvent.error (c5Plan.get ⟨2, by decide⟩).reason,
           RunEvent.status "Task completed"]) ∧
    (∀ a s t, RunEvent.actionStart a s t ∈ (run_action_plan c5Beh c5Plan).1 → s ≤ 2 + 1) :=
  claim_C5 c5Beh c5Plan 2 (by decide) (by decide) (by decide)

/-! ### Claims C9, C10 -/

/-- A page oracle on which no selector ever resolves. -/
def c9WaitNone : String → Nat → Option Unit :=
  fun _ _ => none

deriving instance DecidableEq for Except

/-- Recognizer for dispatcher-level error events. -/
def isErrorEvent : RunEvent → Bool
  | RunEvent.error _ => true
  | _ => false

/-- The step-handler behavior induced by `_handle_fill_form_field` for
`fill_form_field` steps, plugged into the abstract dispatcher. -/
def fillBeh {ε : Type} (wait : String → Nat → Option ε) (rand : String) :
    Nat → Step → Outcome :=
  fun _ step =>
    match handle_fill_form_field wait step.field_name step.value step.generate_if_needed rand with
    | Except.ok (evs, _) => Outcome.ok evs []
    | Except.error msg => Outcome.exn msg

/-- A concrete `fill_form_field` step for the email field. -/
def c9Step : Step :=
  ⟨"fill_form_field", "Unsupported action", "email", "", false⟩

set_option maxHeartbeats 2000000 in
/-- C9 counterexample: when none of the candidate input selectors resolves,
`_handle_fill_form_field` returns normally with a Warning event
(browser.py:593-594) — it does not raise — so the dispatcher emits no Error
event at all and still emits ActionComplete for the step, refuting the claim
that the handler fails the step. -/
theorem claim_C9_counterexample :
    handle_fill_form_field c9WaitNone "email" "" false "r" =
      Except.ok ([HandlerEvent.warning "Field not found: email"], []) ∧
    ((run_action_plan (fillBeh c9WaitNone "r") [c9Step]).1.filter isErrorEvent = [] ∧
     RunEvent.actionComplete "fill_form_field" ∈
       (run_action_plan (fillBeh c9WaitNone "r") [c9Step]).1) := by
  decide

/-- C9 amended: for every `fill_form_field` step in which no candidate input
selector resolves, the handler emits a Warning event naming the field and
returns normally; no handler-level failure is raised, so the dispatcher
emits no Error event for the step and proceeds through ActionComplete. -/
theorem claim_C9_amended {ε : Type} (wait : String → Nat → Option ε)
    (field_name value : String) (generate_if_needed : Bool) (rand : String)
    (h : find_selector_with_retry wait
      (String.intercalate "," (fillCandidates field_name)) = none) :
    handle_fill_form_field wait field_name value generate_if_needed rand =
      Except.ok ([HandlerEvent.warning ("Field not found: " ++ field_name)], []) := by
  unfold handle_fill_form_field
  rw [h]

set_option maxHeartbeats 2000000 in
/-- C9 witness: the amended theorem applied to a concrete unresolvable phone
field. -/
theorem claim_C9_witness :
    handle_fill_form_field c9WaitNone "phone" "" true "r" =
      Except.ok ([HandlerEvent.warning ("Field not found: " ++ "phone")], []) :=
  claim_C9_amended c9WaitNone "phone" "" true "r" (by decide)

/-- C10: whenever the resolver finds any of the four generated candidate
selectors for a `fill_form_field` step, the subsequent fill is issued
against the first candidate string `input[name='<field>']`
(browser.py:591 uses `selectors[0]`), regardless of which candidate actually
resolved; the resolved element handle is never used. -/
theorem claim_C10 {ε : Type} (wait : String → Nat → Option ε)
    (field_name value : String) (generate_if_needed : Bool) (rand : String)
    (h : (find_selector_with_retry wait
      (String.intercalate "," (fillCandidates field_name))).isSome = true) :
    handle_fill_form_field wait field_name value generate_if_needed rand =
      Except.ok ([HandlerEvent.action "fill_form_field" ("Filled " ++ field_name)],
        [FillEffect.fill ("input[name='" ++ field_name ++ "']")
          (fillValue field_name value generate_if_needed rand)]) := by
  unfold handle_fill_form_field
  obtain ⟨el, hel⟩ := Option.isSome_iff_exists.mp h
  rw [hel]

/-- A page oracle on which only the fourth candidate `#email` resolves. -/
def c10Wait : String → Nat → Option Unit :=
  fun sel _ => if sel = "#email" then some () else none

set_option maxHeartbeats 2000000 in
/-- C10 witness: on a page where only the fourth candidate (`#email`)
resolves — the first candidate never does — the fill is still issued against
the first candidate string `input[name='email']`. -/
theorem claim_C10_witness :
    c10Wait "input[name='email']" 0 = none ∧
    handle_fill_form_field c10Wait "email" "v" false "r" =
      Except.ok ([HandlerEvent.action "fill_form_field" ("Filled " ++ "email")],
        [FillEffect.fill ("input[name='" ++ "email" ++ "']")
          (fillValue "email" "v" false "r")]) :=
  ⟨rfl, claim_C10 c10Wait "email" "v" false "r" (by decide)⟩
